import Mathlib

/-! Shallow embedding of `src/aivol/sidecar.py`.

File names and paths are modelled as lists of characters. The external codec
(`universal_load` / `universal_store` from `aivol.config`) is abstracted: loads
become a `load : FName → Option M` parameter (`none` models a falsy/absent
result) and stores become the list of `(path, state)` events a driver returns.
Directory scans (`os.listdir`) are passed in as explicit listings. Runtime
errors of the Python code are modelled with `Except PyErr`. -/

set_option linter.unusedVariables false

/-- A file name (or path), modelled as its list of characters. -/
abbrev FName := List Char

/-- Characters of a string literal, for concrete examples. -/
def chars (s : String) : FName := s.toList

/-- The three-character sidecar separator `---`. -/
def sep : FName := ['-', '-', '-']

/-- The separator occurs at index `i` of `s` (Python `s[i:i+3] == '---'`). -/
def sepAt (s : FName) (i : Nat) : Bool := decide ((s.drop i).take 3 = sep)

/-- All indices of `s` at which the separator occurs. -/
def sepIdxs (s : FName) : List Nat := (List.range s.length).filter (sepAt s)

/-- Python `'---' in s`. -/
def hasSep (s : FName) : Bool := !(sepIdxs s).isEmpty

/-- Python `s.rpartition('---')`, restricted to the found case: split `s` at
the last occurrence of the separator, dropping the separator itself; `none`
when the separator does not occur. -/
def rpartSep (s : FName) : Option (FName × FName) :=
  match (sepIdxs s).maximum with
  | none => none
  | some k => some (s.take k, s.drop (k + 3))

/-- Python `os.path.join(d, f)` for a relative component `f`. -/
def pathJoin (d f : FName) : FName := d ++ ['/'] ++ f

/-- The naming scheme: Python f-string `f"{base}---{identifier}"`. -/
def sidecarName (base identifier : FName) : FName := base ++ sep ++ identifier

/-- Helper for `removeAll`: while `skip > 0` the current character belongs to
an occurrence already matched and is dropped without a new prefix test. -/
def removeAllAux (pat : FName) : FName → Nat → FName
  | [], _ => []
  | c :: rest, Nat.succ k => removeAllAux pat rest k
  | c :: rest, 0 =>
    if pat ≠ [] ∧ pat.isPrefixOf (c :: rest) = true then
      removeAllAux pat rest (pat.length - 1)
    else c :: removeAllAux pat rest 0

/-- Python `s.replace(pat, "")`: delete every left-to-right non-overlapping
occurrence of `pat` from `s`. -/
def removeAll (pat s : FName) : FName := removeAllAux pat s 0

/-- Python `Handler._find` (the scan `os.listdir(self.directory)` is passed in
as `listing`): keep entries that start with the base name and differ from it,
delete every occurrence of `"{base_name}---"` from each, and collect the
distinct results (the Python code accumulates them in a `set`, so the returned
list holds each identifier once). -/
def handlerFind (listing : List FName) (base : FName) : List FName :=
  ((listing.filter (fun f => base.isPrefixOf f && f != base)).map
    (fun f => removeAll (base ++ sep) f)).dedup

/-- Python `Handler.get`: build the sidecar path for `identifier` and delegate
to the codec (`load` abstracts `universal_load`). -/
def handlerGet {M : Type} (load : FName → Option M)
    (directory base identifier : FName) : Option M :=
  load (pathJoin directory (sidecarName base identifier))

/-- Python `Handler.get_all`: the body builds the dictionary
`identifier ↦ get identifier` over `self.sidecar_files` but has no `return`
statement, so the call evaluates to `None` (modelled as `none`). -/
def handlerGetAll {M : Type} (load : FName → Option M) (listing : List FName)
    (directory base : FName) : Option (List (FName × Option M)) :=
  let _all_metadata :=
    (handlerFind listing base).map (fun i => (i, handlerGet load directory base i))
  none

/-- The classification step inside `list_directory` (the spec's
`split_sidecar_name`): partition an entry at its last `---`; it is a sidecar
of the left part exactly when that left part is itself an entry of the same
listing, and not a sidecar at all otherwise. -/
def splitSidecarName (allFiles : List FName) (f : FName) : Option (FName × FName) :=
  match rpartSep f with
  | none => none
  | some (b, i) => if b ∈ allFiles then some (b, i) else none

/-- Python `list_directory` (the scan `os.listdir(directory)` is passed in as
`allFiles`): first component is `non_sidecar_files`, second maps a base name
to the sidecar entries accumulated for it. -/
def list_directory (allFiles : List FName) : List FName × (FName → List FName) :=
  (allFiles.filter (fun f => (splitSidecarName allFiles f).isNone),
   fun b => allFiles.filter (fun f =>
     match splitSidecarName allFiles f with
     | some (b', _) => b' == b
     | none => false))

/-- Runtime errors of the Python code that these claims exercise. -/
inductive PyErr where
  | zeroDivision
  | nameError
  deriving DecidableEq

deriving instance DecidableEq for Except

/-- The `for updated_state in updates_generator` loop of
`update_and_store_sidecar_files`: starting from `counter`, collect the states
whose incremented counter value is a multiple of `save_interval` — those the
loop stores. -/
def updateLoop {M : Type} (save_interval : Nat) : Nat → List M → List M
  | _, [] => []
  | counter, st :: rest =>
    if (counter + 1) % save_interval = 0 then
      st :: updateLoop save_interval (counter + 1) rest
    else updateLoop save_interval (counter + 1) rest

/-- The per-primary body of `update_and_store_sidecar_files`: given the states
the caller's generator yields, return the states stored to the sidecar path,
in order — the loop's stores, then, when the final counter (the number of
produced states) is not a multiple of `save_interval`, the last state once
more. Python `counter % save_interval` raises `ZeroDivisionError` when
`save_interval = 0` — on the first produced state, or, when none is produced,
in the flush check (`0 % 0`). -/
def storeEvents {M : Type} (save_interval : Nat) (states : List M) :
    Except PyErr (List M) :=
  if save_interval = 0 then .error .zeroDivision
  else
    .ok (updateLoop save_interval 0 states
      ++ (if states.length % save_interval ≠ 0 then states.getLast?.toList else []))

/-- Python `update_and_store_sidecar_files` (scan passed as `allFiles`; codec
stores are returned as `(sidecar_file_path, state)` events in order).
`Handler(file_path, load=False)` splits `file_path = directory/f` back into
`(directory, f)`, so `handler.get identifier` loads
`directory/f---identifier`; `initial_state` defaults to `emptyMd` when that
load is falsy (`... or {}`). The caller function is modelled by the list of
states its generator yields for a given `(file_path, initial_state)`. -/
def update_and_store_sidecar_files {M : Type} (load : FName → Option M)
    (emptyMd : M) (allFiles : List FName) (directory identifier : FName)
    (fn : FName → M → List M) (save_interval : Nat) :
    Except PyErr (List (FName × M)) := do
  let non_sidecar_files := (list_directory allFiles).1
  let evss ← non_sidecar_files.mapM (fun f => do
    let file_path := pathJoin directory f
    let initial_state := (handlerGet load directory f identifier).getD emptyMd
    let sidecar_file_path := file_path ++ sep ++ identifier
    let evs ← storeEvents save_interval (fn file_path initial_state)
    pure (evs.map (fun st => (sidecar_file_path, st))))
  pure evss.flatten

/-- Python `process_sidecar_files`: for each primary the loop body evaluates
`os.path.join(self.directory, ...)`, but `self` is not defined in this
module-level function, so the first iteration raises `NameError` before
`function` is ever invoked; with no primaries the loop body never runs. The
result is the list of `(file_path, sidecar_file_path)` invocations made. -/
def process_sidecar_files (allFiles : List FName) (directory identifier : FName) :
    Except PyErr (List (FName × FName)) :=
  match (list_directory allFiles).1 with
  | [] => .ok []
  | _ :: _ => .error .nameError

/-- Python `load_to_pandas` (`isDir` abstracts `os.path.isdir(directory)`; the
returned list would be the dataframe rows): when the path is not a directory
it writes an error message and returns an empty dataframe; otherwise its first
statement calls `load_directory(directory)`, a name this module never defines
(the classifier is named `list_directory`), raising `NameError`. -/
def load_to_pandas {M : Type} (directory identifier : FName) (isDir : Bool) :
    Except PyErr (List M) :=
  if isDir then .error .nameError else .ok []

/-- The directory listing of the classifier-partition example. -/
def exListing : List FName := [chars "a.txt", chars "a.txt---meta", chars "b.txt---meta"]

theorem sepAt_iff {s : FName} {i : Nat} : sepAt s i = true ↔ (s.drop i).take 3 = sep :=
  decide_eq_true_iff

theorem lt_length_of_sepAt {s : FName} {i : Nat} (h : sepAt s i = true) : i < s.length := by
  have h' := sepAt_iff.mp h
  have hlen : ((s.drop i).take 3).length = 3 := by rw [h']; rfl
  rw [List.length_take, List.length_drop] at hlen
  omega

theorem rpartSep_eq_of {s : FName} {k : Nat} (hk : sepAt s k = true)
    (hub : ∀ j, sepAt s j = true → j ≤ k) :
    rpartSep s = some (s.take k, s.drop (k + 3)) := by
  have hmem : k ∈ sepIdxs s := by
    rw [sepIdxs, List.mem_filter, List.mem_range]
    exact ⟨lt_length_of_sepAt hk, hk⟩
  have hmax : (sepIdxs s).maximum = (k : WithBot Nat) := by
    refine List.maximum_eq_coe_iff.mpr ⟨hmem, ?_⟩
    intro j hj
    rw [sepIdxs, List.mem_filter] at hj
    exact hub j hj.2
  simp [rpartSep, hmax]

theorem sepAt_eq_false_of_hasSep {s : FName} (h : hasSep s = false) (j : Nat) :
    sepAt s j = false := by
  cases hj : sepAt s j
  · rfl
  · exfalso
    have hmem : j ∈ sepIdxs s := by
      rw [sepIdxs, List.mem_filter, List.mem_range]
      exact ⟨lt_length_of_sepAt hj, hj⟩
    rw [hasSep, Bool.not_eq_false'] at h
    rw [List.isEmpty_iff] at h
    rw [h] at hmem
    exact List.not_mem_nil j hmem

theorem rpartSep_sidecarName {B I : FName} (hI : hasSep I = false)
    (hI0 : I.head? ≠ some '-') :
    rpartSep (sidecarName B I) = some (B, I) := by
  have hassoc : sidecarName B I = B ++ (sep ++ I) := by
    rw [sidecarName, List.append_assoc]
  have hk : sepAt (sidecarName B I) B.length = true := by
    rw [sepAt_iff, hassoc, List.drop_left]
    rfl
  have hub : ∀ j, sepAt (sidecarName B I) j = true → j ≤ B.length := by
    intro j hj
    by_contra hgt
    push_neg at hgt
    obtain ⟨d, rfl⟩ : ∃ d, j = B.length + (1 + d) := ⟨j - (B.length + 1), by omega⟩
    rw [sepAt_iff, hassoc, ← List.drop_drop, List.drop_left] at hj
    rcases d with _ | _ | d
    · cases I with
      | nil => exact absurd hj (by decide)
      | cons c I' =>
        have hc : c = '-' := by
          have := congrArg (fun l => l.get? 2) hj
          simpa [sep] using this
        exact hI0 (by simp [hc])
    · cases I with
      | nil => exact absurd hj (by decide)
      | cons c I' =>
        have hc : c = '-' := by
          have := congrArg (fun l => l.get? 1) hj
          simpa [sep] using this
        exact hI0 (by simp [hc])
    · have hIj : sepAt I d = true := by
        rw [sepAt_iff]
        have h3 : 1 + (d + 1 + 1) = d + 1 + 1 + 1 := by omega
        rw [h3] at hj
        simpa [sep] using hj
      rw [sepAt_eq_false_of_hasSep hI d] at hIj
      exact absurd hIj (by decide)
  have := rpartSep_eq_of hk hub
  rw [hassoc] at this ⊢
  rw [this, List.take_left]
  have hdrop : (B ++ (sep ++ I)).drop (B.length + 3) = I := by
    rw [← List.drop_drop, List.drop_left]
    rfl
  rw [hdrop]

theorem mem_primaries_iff {allFiles : List FName} {e : FName} :
    e ∈ (list_directory allFiles).1 ↔ e ∈ allFiles ∧ splitSidecarName allFiles e = none := by
  simp [list_directory, List.mem_filter, Option.isNone_iff_eq_none]

theorem mem_sidecars_iff {allFiles : List FName} {e b : FName} :
    e ∈ (list_directory allFiles).2 b ↔
      e ∈ allFiles ∧ ∃ i, splitSidecarName allFiles e = some (b, i) := by
  constructor
  · intro hmem
    have h1 := (List.mem_filter.mp hmem).1
    have h2 := (List.mem_filter.mp hmem).2
    refine ⟨h1, ?_⟩
    rcases h : splitSidecarName allFiles e with _ | ⟨b', i⟩
    · rw [h] at h2
      simp at h2
    · rw [h] at h2
      simp only [beq_iff_eq] at h2
      exact ⟨i, by rw [h2]⟩
  · rintro ⟨h1, i, h⟩
    exact List.mem_filter.mpr ⟨h1, by simp [h]⟩


theorem mapM_ok_nil {α β : Type} (g : α → Except PyErr (List β)) (l : List α)
    (hg : ∀ x, g x = .ok []) : l.mapM g = .ok (l.map fun _ => ([] : List β)) := by
  induction l with
  | nil => rfl
  | cons a as ih =>
    rw [List.mapM_cons, hg a, ih]
    rfl

theorem flatten_map_nil {α β : Type} (l : List α) :
    (l.map fun _ => ([] : List β)).flatten = [] := by
  induction l with
  | nil => rfl
  | cons a as ih => simp

/-- Claim C2: contrary to the claim, `Handler.get_all` never returns the
discovered mapping: its body builds the dictionary but has no `return`
statement, so every call evaluates to `None`. -/
theorem get_all_returns_none {M : Type} (load : FName → Option M)
    (listing : List FName) (directory base : FName) :
    handlerGetAll load listing directory base = none := rfl

/-- Claim C3: on a directory whose classification has at least one primary
file (here the single entry `a.txt`), `process_sidecar_files` raises
`NameError` on the undefined `self.directory` before invoking the caller's
function even once. -/
theorem process_sidecar_files_raises_name_error :
    process_sidecar_files [chars "a.txt"] (chars "d") (chars "meta.json") =
      .error .nameError := by decide

/-- Claim C8: on an existing directory, `load_to_pandas` raises `NameError`
on its first statement — it calls `load_directory`, a name the module never
defines — instead of building any rows. -/
theorem load_to_pandas_raises_name_error :
    load_to_pandas (M := Nat) (chars "d") (chars "meta.json") true =
      .error .nameError := rfl

/-- Claim C10: the identifier list returned by `Handler._find` never contains
duplicates (the Python code collects identifiers in a `set`); in particular
the two distinct entries `a---a---x` and `a---x` both reduce to the single
identifier `x` under removal of every `a---` occurrence, and the result list
holds it once. -/
theorem discovery_identifiers_nodup :
    (∀ (listing : List FName) (base : FName), (handlerFind listing base).Nodup) ∧
      handlerFind [chars "a", chars "a---a---x", chars "a---x"] (chars "a") = [chars "x"] :=
  ⟨fun listing base => List.nodup_dedup _, by decide⟩

/-- Claim C4 (counterexample): with base name `a.txt` and identifier `x---y`,
splitting `a.txt---x---y` against a listing containing `a.txt` does not
recover `(a.txt, x---y)` — the split happens at the last `---`, and the
candidate prefix `a.txt---x` is not in the listing. -/
theorem naming_invertibility_counterexample :
    splitSidecarName [chars "a.txt", sidecarName (chars "a.txt") (chars "x---y")]
        (sidecarName (chars "a.txt") (chars "x---y")) ≠
      some (chars "a.txt", chars "x---y") := by decide

/-- Claim C4 (amended): for every base name B not containing `---` and every
identifier I that neither contains `---` nor begins with `-`, splitting
`B ++ "---" ++ I` against a listing containing B recovers exactly `(B, I)`. -/
theorem naming_invertibility (B I : FName) (allFiles : List FName)
    (hB : hasSep B = false) (hI : hasSep I = false) (hI0 : I.head? ≠ some '-')
    (hmem : B ∈ allFiles) :
    splitSidecarName allFiles (sidecarName B I) = some (B, I) := by
  rw [splitSidecarName, rpartSep_sidecarName hI hI0]
  simp [hmem]

/-- Witness for C4 (amended), at the spec's own example. -/
theorem naming_invertibility_witness :
    splitSidecarName [chars "photo.jpg"]
        (sidecarName (chars "photo.jpg") (chars "tags.json")) =
      some (chars "photo.jpg", chars "tags.json") :=
  naming_invertibility (chars "photo.jpg") (chars "tags.json") [chars "photo.jpg"]
    (by decide) (by decide) (by decide) (by decide)

/-- Claim C6 (counterexample): with base name `a` and listing `{a, ab}`,
`Handler._find` selects the entry `ab` (its filter only requires
`startswith(base_name)` and inequality with the base name) and yields the
identifier `ab`, although `ab` does not start with `a---`; so discovery does
not select exactly the entries starting with `{base_name}---`. -/
theorem discovery_prefix_filter_counterexample :
    handlerFind [chars "a", chars "ab"] (chars "a") = [chars "ab"] ∧
      (chars "a" ++ sep).isPrefixOf (chars "ab") = false := by decide

/-- Claim C6 (amended): discovery yields exactly the results of deleting every
occurrence of `{base_name}---` from the entries that start with the base name
and differ from it. -/
theorem discovery_characterization (listing : List FName) (base ident : FName) :
    ident ∈ handlerFind listing base ↔
      ∃ f ∈ listing, base.isPrefixOf f = true ∧ f ≠ base ∧
        removeAll (base ++ sep) f = ident := by
  simp only [handlerFind, List.mem_dedup, List.mem_map, List.mem_filter,
    Bool.and_eq_true, bne_iff_ne, ne_eq]
  constructor
  · rintro ⟨f, ⟨hf, hpre, hne⟩, hid⟩
    exact ⟨f, hf, hpre, hne, hid⟩
  · rintro ⟨f, hf, hpre, hne, hid⟩
    exact ⟨f, ⟨hf, hpre, hne⟩, hid⟩

/-- Claim C5: `list_directory` classifies every entry of a listing exactly
once — an entry whose last-`---` prefix is itself in the listing is a sidecar
of exactly that prefix and of nothing else; any other entry (no `---`, or an
unknown prefix) is a primary and nobody's sidecar — and on the listing
`{a.txt, a.txt---meta, b.txt---meta}` the primaries are `a.txt` and
`b.txt---meta` and the only sidecar of `a.txt` is `a.txt---meta`. -/
theorem classifier_partition :
    (∀ (allFiles : List FName) (e : FName), e ∈ allFiles →
      (rpartSep e = none →
        e ∈ (list_directory allFiles).1 ∧ ∀ b, e ∉ (list_directory allFiles).2 b) ∧
      (∀ b i, rpartSep e = some (b, i) →
        (b ∈ allFiles →
          e ∈ (list_directory allFiles).2 b ∧ e ∉ (list_directory allFiles).1 ∧
          ∀ b', e ∈ (list_directory allFiles).2 b' → b' = b) ∧
        (b ∉ allFiles →
          e ∈ (list_directory allFiles).1 ∧ ∀ b', e ∉ (list_directory allFiles).2 b'))) ∧
    (list_directory exListing).1 = [chars "a.txt", chars "b.txt---meta"] ∧
    (list_directory exListing).2 (chars "a.txt") = [chars "a.txt---meta"] := by
  refine ⟨?_, by decide, by decide⟩
  intro allFiles e he
  constructor
  · intro hnone
    have hsplit : splitSidecarName allFiles e = none := by
      simp [splitSidecarName, hnone]
    refine ⟨mem_primaries_iff.mpr ⟨he, hsplit⟩, fun b hb => ?_⟩
    obtain ⟨-, i, hi⟩ := mem_sidecars_iff.mp hb
    rw [hsplit] at hi
    cases hi
  · intro b i hsome
    constructor
    · intro hbmem
      have hsplit : splitSidecarName allFiles e = some (b, i) := by
        simp [splitSidecarName, hsome, hbmem]
      refine ⟨mem_sidecars_iff.mpr ⟨he, i, hsplit⟩, ?_, ?_⟩
      · intro hp
        obtain ⟨-, hnone⟩ := mem_primaries_iff.mp hp
        rw [hsplit] at hnone
        cases hnone
      · intro b' hb'
        obtain ⟨-, i', hi'⟩ := mem_sidecars_iff.mp hb'
        rw [hsplit] at hi'
        simp only [Option.some.injEq, Prod.mk.injEq] at hi'
        exact hi'.1.symm
    · intro hbnot
      have hsplit : splitSidecarName allFiles e = none := by
        simp [splitSidecarName, hsome, hbnot]
      refine ⟨mem_primaries_iff.mpr ⟨he, hsplit⟩, fun b' hb' => ?_⟩
      obtain ⟨-, i', hi'⟩ := mem_sidecars_iff.mp hb'
      rw [hsplit] at hi'
      cases hi'

/-- Witness for C5: the sidecar classification of the example entry
`a.txt---meta`, extracted by applying the partition theorem. -/
theorem classifier_partition_witness :
    chars "a.txt---meta" ∈ (list_directory exListing).2 (chars "a.txt") :=
  (((classifier_partition.1 exListing (chars "a.txt---meta") (by decide)).2
      (chars "a.txt") (chars "meta") (by decide)).1 (by decide)).1

/-- Claim C1: with `save_interval = 3` on a directory whose only primary is
`f`, a caller function producing exactly the seven states `s1 … s7` makes the
driver persist to the sidecar path exactly three times — the 3rd, the 6th,
and (via the flush-remainder step) the 7th produced state — and the final
persisted content is the 7th state. -/
theorem save_interval_exactness {M : Type} (load : FName → Option M) (emptyMd : M)
    (allFiles : List FName) (directory identifier f : FName)
    (fn : FName → M → List M) (s1 s2 s3 s4 s5 s6 s7 : M)
    (hp : (list_directory allFiles).1 = [f])
    (hs : fn (pathJoin directory f)
        ((handlerGet load directory f identifier).getD emptyMd) =
        [s1, s2, s3, s4, s5, s6, s7]) :
    update_and_store_sidecar_files load emptyMd allFiles directory identifier fn 3 =
      .ok [(pathJoin directory f ++ sep ++ identifier, s3),
        (pathJoin directory f ++ sep ++ identifier, s6),
        (pathJoin directory f ++ sep ++ identifier, s7)] := by
  have hst : storeEvents 3 [s1, s2, s3, s4, s5, s6, s7] = .ok [s3, s6, s7] := by
    simp [storeEvents, updateLoop]
  simp only [update_and_store_sidecar_files, hp, List.mapM_cons, List.mapM_nil, hs, hst]
  rfl

/-- Witness for C1, with the seven states `1 … 7` on the single primary
`a.txt`. -/
theorem save_interval_exactness_witness :
    update_and_store_sidecar_files (fun _ => none) 0 [chars "a.txt"] (chars "d")
      (chars "m") (fun _ _ => [1, 2, 3, 4, 5, 6, 7]) 3 =
      .ok [(chars "d/a.txt---m", 3), (chars "d/a.txt---m", 6), (chars "d/a.txt---m", 7)] :=
  save_interval_exactness (fun _ => none) 0 [chars "a.txt"] (chars "d") (chars "m")
    (chars "a.txt") (fun _ _ => [1, 2, 3, 4, 5, 6, 7]) 1 2 3 4 5 6 7 (by decide) rfl

/-- Claim C9: with `save_interval = 0`, on any directory whose classification
has at least one primary file, the driver hits `counter % save_interval` —
either on the first produced state or, for a function producing no states, in
the flush check — and raises `ZeroDivisionError`, whatever the caller
function yields. -/
theorem zero_save_interval_raises {M : Type} (load : FName → Option M) (emptyMd : M)
    (allFiles : List FName) (directory identifier : FName) (fn : FName → M → List M)
    (hne : (list_directory allFiles).1 ≠ []) :
    update_and_store_sidecar_files load emptyMd allFiles directory identifier fn 0 =
      .error .zeroDivision := by
  rcases hp : (list_directory allFiles).1 with _ | ⟨p, rest⟩
  · exact absurd hp hne
  · simp only [update_and_store_sidecar_files, hp, List.mapM_cons]
    rfl

/-- Witness for C9, on the single primary `a.txt` with a function producing
zero states. -/
theorem zero_save_interval_raises_witness :
    update_and_store_sidecar_files (M := Nat) (fun _ => none) 0 [chars "a.txt"]
      (chars "d") (chars "m") (fun _ _ => []) 0 = .error .zeroDivision :=
  zero_save_interval_raises (fun _ => none) 0 [chars "a.txt"] (chars "d") (chars "m")
    (fun _ _ => []) (by decide)

/-- Claim C7 (counterexample): with `save_interval = 0` the driver does fail
on a function producing zero states — the flush check computes `0 % 0` — so
the claim's unqualified "the driver does not fail" is false. -/
theorem empty_function_zero_interval_counterexample :
    update_and_store_sidecar_files (M := Nat) (fun _ => none) 0 [chars "b.txt"]
      (chars "d") (chars "tags") (fun _ _ => []) 0 = .error .zeroDivision := by decide

/-- Claim C7 (amended): provided `save_interval` is nonzero (as with the
default `10`), a caller function producing zero states for every primary
makes the driver perform no persistence at all — no store event occurs for
any sidecar path — and the driver does not fail. -/
theorem empty_function_no_persistence {M : Type} (load : FName → Option M)
    (emptyMd : M) (allFiles : List FName) (directory identifier : FName)
    (fn : FName → M → List M) (save_interval : Nat)
    (hsi : save_interval ≠ 0) (hfn : ∀ p st, fn p st = []) :
    update_and_store_sidecar_files load emptyMd allFiles directory identifier fn
      save_interval = .ok [] := by
  have hst : ∀ (states : List M), states = [] →
      storeEvents save_interval states = .ok [] := by
    intro states hstates
    subst hstates
    rw [storeEvents, if_neg hsi]
    simp [updateLoop]
  simp only [update_and_store_sidecar_files]
  rw [mapM_ok_nil _ _ (fun f => by rw [hst _ (hfn _ _)]; rfl)]
  simp [flatten_map_nil]

/-- Witness for C7 (amended), at the default interval `10` on the single
primary `a.txt`. -/
theorem empty_function_no_persistence_witness :
    update_and_store_sidecar_files (M := Nat) (fun _ => none) 0 [chars "a.txt"]
      (chars "d") (chars "m") (fun _ _ => []) 10 = .ok [] :=
  empty_function_no_persistence (fun _ => none) 0 [chars "a.txt"] (chars "d")
    (chars "m") (fun _ _ => []) 10 (by decide) (fun _ _ => rfl)
